import Mathlib

/-!
Verification of the parking-data aggregation script
`app/scripts/analyze_parking_data.py`.

The script fetches lot records from a document database, turns each lot's
sparse hour-to-count mapping into a dense 24-slot occupancy-rate sequence,
and writes the resulting mapping to a JSON file.

Modelling conventions:
* Numbers read from the database (capacities, counts) are modelled as exact
  rationals; the real-number semantics stands in for IEEE double arithmetic,
  whose special values produced by division by zero (infinities, NaN) are
  modelled explicitly by the type `PyF`.
* Hour labels are modelled after the script's `int(hour)` conversion, i.e.
  as integers; dictionary key uniqueness appears as `Nodup` hypotheses on
  the parsed hour keys where index alignment matters.
* A missing dictionary key is an `Option` that is `none`; subscript access
  on a missing key is a `KeyError`, modelled by `Except`.
-/

/-- Python/pandas floating-point values: finite values are modelled exactly
as rationals, and the IEEE special values that pandas produces on division
by zero are explicit constructors. -/
inductive PyF where
  | fin (q : ℚ)
  | inf
  | ninf
  | nan
deriving DecidableEq, Repr

/-- Division of two finite values with pandas (IEEE true-division)
semantics: dividing by zero yields `+inf` for a positive numerator, `-inf`
for a negative one, and `NaN` for `0 / 0`; no exception is raised. -/
def pyDiv (a b : ℚ) : PyF :=
  if b = 0 then
    if 0 < a then PyF.inf else if a < 0 then PyF.ninf else PyF.nan
  else PyF.fin (a / b)

/-- Multiplication of a pandas value by the finite positive constant 100,
as in `df['occupancy_rate'] = (df['occupied'] / capacity) * 100`. -/
def pyMul100 : PyF → PyF
  | PyF.fin q => PyF.fin (q * 100)
  | PyF.inf => PyF.inf
  | PyF.ninf => PyF.ninf
  | PyF.nan => PyF.nan

/-- Occupancy rate `occupied / capacity * 100` as computed on line 40 of
the script, with pandas semantics when `capacity = 0`. -/
def occupancyRate (occupied capacity : ℚ) : PyF :=
  pyMul100 (pyDiv occupied capacity)

/-- Binary maximum with pandas `skipna` semantics: `NaN` is transparent,
infinities dominate, finite values compare as rationals. -/
def pyMax2 : PyF → PyF → PyF
  | PyF.nan, y => y
  | x, PyF.nan => x
  | PyF.inf, _ => PyF.inf
  | _, PyF.inf => PyF.inf
  | PyF.ninf, y => y
  | x, PyF.ninf => x
  | PyF.fin p, PyF.fin q => PyF.fin (max p q)

/-- Result of `Series.max()` with its default `skipna=True`: fold of
`pyMax2` starting from `NaN` (the result on an empty or all-NaN series). -/
def pyMaxList (l : List PyF) : PyF :=
  l.foldl pyMax2 PyF.nan

/-- Comparison `x ≤ y` on non-NaN pandas values (`-inf` below every value,
`+inf` above every value, finite values by the rational order); a `NaN`
argument compares as a bottom element, which is never relied upon. -/
def pyfLe : PyF → PyF → Bool
  | PyF.nan, _ => true
  | _, PyF.nan => false
  | _, PyF.inf => true
  | PyF.inf, _ => false
  | PyF.ninf, _ => true
  | _, PyF.ninf => false
  | PyF.fin p, PyF.fin q => decide (p ≤ q)

/-- Pandas `Series.update` restricted to one aligned label: the slot at
index `h` of the 24-slot series is overwritten when `h` is one of the
index labels `0..23` and the incoming value is not NA (update skips NA
values); any other label is ignored. -/
def updateSlot (slots : List PyF) (h : ℤ) (v : PyF) : List PyF :=
  if v = PyF.nan then slots
  else if 0 ≤ h ∧ h < 24 then slots.set h.toNat v
  else slots

/-- Lines 43-46 of the script: a dense series of 24 slots initialised to
`0.0` (`pd.Series(index=range(24), data=0.0)`), then updated with the
occupancy rate of every present hour. -/
def buildSlots (capacity : ℚ) (hours : List (ℤ × ℚ)) : List PyF :=
  hours.foldl (fun slots p => updateSlot slots p.1 (occupancyRate p.2 capacity))
    (List.replicate 24 (PyF.fin 0))

/-- A lot record as fetched from the `lots` collection.  Each required
field is an `Option` because a Firestore document may lack it; the sparse
`historicalData.averageByHour` mapping is a key-value list whose hour
labels have already gone through the script's `int(hour)` conversion, and
an absent `historicalData` or `averageByHour` is the empty list (the
script defaults both to the empty dict via `.get`). -/
structure LotRecord where
  name : Option String
  capacity : Option ℚ
  permit : Option String
  count_now : Option ℚ
  averageByHour : List (ℤ × ℚ)
deriving DecidableEq, Repr

/-- A per-lot summary as stored in `popular_times` (lines 48-54). -/
structure LotSummary where
  data : List PyF
  max_occupancy : PyF
  permit : String
  current_occupancy : ℚ
  capacity : ℚ
deriving DecidableEq, Repr

/-- The one kind of error the per-lot loop body can raise: a `KeyError`
from subscripting a missing required field. -/
inductive PyError where
  | keyError (field : String)
deriving DecidableEq, Repr

/-- Loop body of `analyze_parking_data` for one lot (lines 27-54):
`lot['name']` and `lot['capacity']` are read unconditionally; when the
hourly mapping is empty the dataframe is empty and the lot is skipped
(`.ok none`); otherwise the rates are computed and `lot['permit']` and
`lot['count_now']` are read while building the summary dict. -/
def processLot (lot : LotRecord) : Except PyError (Option (String × LotSummary)) :=
  match lot.name with
  | none => Except.error (PyError.keyError "name")
  | some nm =>
    match lot.capacity with
    | none => Except.error (PyError.keyError "capacity")
    | some cap =>
      if lot.averageByHour.isEmpty then Except.ok none
      else
        match lot.permit with
        | none => Except.error (PyError.keyError "permit")
        | some permit =>
          match lot.count_now with
          | none => Except.error (PyError.keyError "count_now")
          | some cnt =>
            Except.ok (some (nm, ⟨buildSlots cap lot.averageByHour,
              pyMaxList (buildSlots cap lot.averageByHour), permit, cnt, cap⟩))

/-- Python dict assignment `d[k] = v`: overwrite in place when the key is
already present (keeping its original position), append otherwise. -/
def dictInsert {α : Type} (d : List (String × α)) (k : String) (v : α) : List (String × α) :=
  if d.any (fun p => p.1 = k) then
    d.map (fun p => if p.1 = k then (k, v) else p)
  else d ++ [(k, v)]

/-- The `for lot in lots_data` loop accumulating `popular_times`: the
first `KeyError` aborts the whole loop. -/
def analyzeLoop : List LotRecord → List (String × LotSummary) → Except PyError (List (String × LotSummary))
  | [], acc => Except.ok acc
  | lot :: rest, acc =>
    match processLot lot with
    | Except.error e => Except.error e
    | Except.ok none => analyzeLoop rest acc
    | Except.ok (some (nm, s)) => analyzeLoop rest (dictInsert acc nm s)

/-- The aggregation stage of `analyze_parking_data`: fold the loop body
over the fetched records, starting from the empty dict. -/
def analyze (lots : List LotRecord) : Except PyError (List (String × LotSummary)) :=
  analyzeLoop lots []

/-- Everything that can abort a run before the write stage. -/
inductive RunError where
  | fetchFailure
  | aggregateError (e : PyError)
deriving DecidableEq, Repr

/-- The pipeline up to (but not including) the write: the fetch result is
an input (`Except Unit` models a connectivity or authentication failure
of `get_firestore_data`); a fetch failure or a `KeyError` inside the loop
propagates and aborts the run. -/
def runPipeline (fetch : Except Unit (List LotRecord)) :
    Except RunError (List (String × LotSummary)) :=
  match fetch with
  | Except.error _ => Except.error RunError.fetchFailure
  | Except.ok lots =>
    match analyze lots with
    | Except.error e => Except.error (RunError.aggregateError e)
    | Except.ok m => Except.ok m

/-- The JSON documents the writer can emit: objects keep field order, and
the non-standard tokens `Infinity`, `-Infinity`, `NaN` that `json.dump`
writes for IEEE special values are explicit constructors. -/
inductive JVal where
  | num (q : ℚ)
  | jinf
  | jninf
  | jnan
  | str (s : String)
  | arr (xs : List JVal)
  | obj (fields : List (String × JVal))

/-- Serialisation of one pandas value by `json.dump`. -/
def pyfToJson : PyF → JVal
  | PyF.fin q => JVal.num q
  | PyF.inf => JVal.jinf
  | PyF.ninf => JVal.jninf
  | PyF.nan => JVal.jnan

/-- Interpretation of one JSON scalar back as a pandas value
(`json.load` with its default `parse_constant`). -/
def pyfOfJson : JVal → Option PyF
  | JVal.num q => some (PyF.fin q)
  | JVal.jinf => some PyF.inf
  | JVal.jninf => some PyF.ninf
  | JVal.jnan => some PyF.nan
  | _ => none

/-- Fallible map over a list, failing when any element fails. -/
def mapOption {α β : Type} (f : α → Option β) : List α → Option (List β)
  | [] => some []
  | a :: t =>
    match f a, mapOption f t with
    | some b, some bs => some (b :: bs)
    | _, _ => none

/-- Serialisation of one lot summary: the dict literal of lines 48-54 in
its insertion order. -/
def dumpSummary (s : LotSummary) : JVal :=
  JVal.obj [("data", JVal.arr (s.data.map pyfToJson)),
            ("max_occupancy", pyfToJson s.max_occupancy),
            ("permit", JVal.str s.permit),
            ("current_occupancy", JVal.num s.current_occupancy),
            ("capacity", JVal.num s.capacity)]

/-- Serialisation of the whole `popular_times` mapping by
`json.dump(popular_times, f, indent=2)`: an object whose fields follow
the dict's insertion order. -/
def dumpOutput (m : List (String × LotSummary)) : JVal :=
  JVal.obj (m.map (fun p => (p.1, dumpSummary p.2)))

/-- Modelled from the spec: one summary object of the output file parsed
back (`json.load` is not part of the repository).  A summary carries
exactly the five fields the writer emits, in their order. -/
def parseSummary : JVal → Option LotSummary
  | JVal.obj [(k1, JVal.arr ds), (k2, mo), (k3, JVal.str p), (k4, JVal.num c), (k5, JVal.num cap)] =>
    if k1 = "data" ∧ k2 = "max_occupancy" ∧ k3 = "permit" ∧
        k4 = "current_occupancy" ∧ k5 = "capacity" then
      match mapOption pyfOfJson ds, pyfOfJson mo with
      | some data, some m => some ⟨data, m, p, c, cap⟩
      | _, _ => none
    else none
  | _ => none

/-- Modelled from the spec: the whole output document parsed back into a
mapping from lot name to summary; the top-level object is rebuilt into a
Python dict (duplicate keys last-wins, first position kept), exactly as
`json.load` constructs its result. -/
def parseOutput : JVal → Option (List (String × LotSummary))
  | JVal.obj fields =>
    match mapOption (fun p => (parseSummary p.2).map (fun s => (p.1, s))) fields with
    | some l => some (l.foldl (fun d q => dictInsert d q.1 q.2) [])
    | none => none
  | _ => none

/-- Contents of `src/data/popularTimes.json` after a run: nothing is
written when the run fails before the write stage (the `open` on line 57
is only reached after the loop completes). -/
def writtenOutput (fetch : Except Unit (List LotRecord)) : Option JVal :=
  match runPipeline fetch with
  | Except.error _ => none
  | Except.ok m => some (dumpOutput m)

/-- Specification-side value of slot `h`: the occupancy rate of the hour
when it is present with a non-NaN rate, `0.0` otherwise. -/
def slotSpec (capacity : ℚ) (hours : List (ℤ × ℚ)) (h : ℕ) : PyF :=
  match hours.find? (fun p => p.1 = (h : ℤ)) with
  | none => PyF.fin 0
  | some p =>
    if occupancyRate p.2 capacity = PyF.nan then PyF.fin 0
    else occupancyRate p.2 capacity

/-- A finite value is never the NaN constructor. -/
theorem fin_ne_nan (q : ℚ) : (PyF.fin q = PyF.nan) = False := by simp

/-- The positive infinity is never the NaN constructor. -/
theorem inf_ne_nan : (PyF.inf = PyF.nan) = False := by simp

/-- With a nonzero capacity the occupancy rate is the exact rational
`occupied / capacity * 100`. -/
theorem occupancyRate_of_ne_zero (occupied capacity : ℚ) (h : capacity ≠ 0) :
    occupancyRate occupied capacity = PyF.fin (occupied / capacity * 100) := by
  unfold occupancyRate pyDiv pyMul100
  rw [if_neg h]

/-- With capacity zero and a positive count the occupancy rate is `+inf`. -/
theorem occupancyRate_zero_cap (occupied : ℚ) (h : 0 < occupied) :
    occupancyRate occupied 0 = PyF.inf := by
  unfold occupancyRate pyDiv pyMul100
  rw [if_pos rfl, if_pos h]

/-- Updating a slot never changes the length of the series. -/
theorem updateSlot_length (slots : List PyF) (h : ℤ) (v : PyF) :
    (updateSlot slots h v).length = slots.length := by
  unfold updateSlot
  split
  · rfl
  split
  · exact List.length_set ..
  · rfl

/-- Updating at a label other than `i` leaves slot `i` unchanged. -/
theorem updateSlot_get_other (slots : List PyF) (h : ℤ) (v : PyF) (i : ℕ)
    (hne : h ≠ (i : ℤ)) : (updateSlot slots h v)[i]? = slots[i]? := by
  unfold updateSlot
  split
  · rfl
  split
  · exact List.getElem?_set_ne (by omega)
  · rfl

/-- Folding the update step leaves slot `i` unchanged when every entry
carrying label `i` has a NaN rate (in particular when no entry does). -/
theorem foldlUpdate_get_preserved (cap : ℚ) (l : List (ℤ × ℚ)) :
    ∀ (slots : List PyF) (i : ℕ), i < 24 →
    (∀ p ∈ l, p.1 = (i : ℤ) → occupancyRate p.2 cap = PyF.nan) →
    (l.foldl (fun s p => updateSlot s p.1 (occupancyRate p.2 cap)) slots)[i]? = slots[i]? := by
  induction l with
  | nil => intro slots i _ _; rfl
  | cons p t ih =>
    intro slots i hi hnan
    rw [List.foldl_cons, ih _ i hi (fun q hq hqi => hnan q (List.mem_cons_of_mem _ hq) hqi)]
    by_cases hp : p.1 = (i : ℤ)
    · have hv := hnan p (List.mem_cons_self ..) hp
      unfold updateSlot
      rw [if_pos hv]
    · exact updateSlot_get_other _ _ _ _ hp

/-- Folding the update step writes the occupancy rate of a present hour
`h` into slot `h` when the parsed hour keys are distinct, `h` is in
range and the rate is not NaN. -/
theorem foldlUpdate_get_written (cap : ℚ) (l : List (ℤ × ℚ)) :
    ∀ (slots : List PyF), slots.length = 24 →
    (l.map Prod.fst).Nodup → ∀ (h : ℤ) (occ : ℚ), (h, occ) ∈ l → 0 ≤ h → h < 24 →
    occupancyRate occ cap ≠ PyF.nan →
    (l.foldl (fun s p => updateSlot s p.1 (occupancyRate p.2 cap)) slots)[h.toNat]? =
      some (occupancyRate occ cap) := by
  induction l with
  | nil =>
    intro slots _ _ h occ hmem
    cases hmem
  | cons p t ih =>
    intro slots hlen hnodup h occ hmem h0 h24 hnn
    rw [List.foldl_cons]
    rcases List.mem_cons.mp hmem with heq | hmem'
    · have hp : p = (h, occ) := heq.symm
      subst hp
      have hkey : (h : ℤ) ∉ t.map Prod.fst := by
        rw [List.map_cons] at hnodup
        exact (List.nodup_cons.mp hnodup).1
      have hti : h.toNat < 24 := by omega
      rw [foldlUpdate_get_preserved cap t _ h.toNat hti ?noentry]
      case noentry =>
        intro q hq hqi
        exfalso
        apply hkey
        have : (h.toNat : ℤ) = h := by omega
        rw [← this, ← hqi]
        exact List.mem_map_of_mem _ hq
      unfold updateSlot
      rw [if_neg hnn, if_pos ⟨h0, h24⟩]
      rw [List.getElem?_set_self]
      simp [hlen, hti]
    · have hlen2 : (updateSlot slots p.1 (occupancyRate p.2 cap)).length = 24 := by
        rw [updateSlot_length]; exact hlen
      have hnodup2 : (t.map Prod.fst).Nodup := by
        rw [List.map_cons] at hnodup
        exact (List.nodup_cons.mp hnodup).2
      exact ih _ hlen2 hnodup2 h occ hmem' h0 h24 hnn

/-- The 24-slot series is always 24 slots long. -/
theorem buildSlots_length (cap : ℚ) (hours : List (ℤ × ℚ)) :
    (buildSlots cap hours).length = 24 := by
  unfold buildSlots
  have : ∀ (l : List (ℤ × ℚ)) (slots : List PyF),
      (l.foldl (fun s p => updateSlot s p.1 (occupancyRate p.2 cap)) slots).length = slots.length := by
    intro l
    induction l with
    | nil => intro slots; rfl
    | cons p t ih => intro slots; rw [List.foldl_cons, ih, updateSlot_length]
  rw [this]
  simp

/-- Equation for `slotSpec` when hour `i` is absent. -/
theorem slotSpec_of_none (cap : ℚ) (hours : List (ℤ × ℚ)) (i : ℕ)
    (h : hours.find? (fun p => p.1 = (i : ℤ)) = none) :
    slotSpec cap hours i = PyF.fin 0 := by
  unfold slotSpec
  rw [h]

/-- Equation for `slotSpec` when hour `i` is present. -/
theorem slotSpec_of_some (cap : ℚ) (hours : List (ℤ × ℚ)) (i : ℕ) (p : ℤ × ℚ)
    (h : hours.find? (fun q => q.1 = (i : ℤ)) = some p) :
    slotSpec cap hours i =
      if occupancyRate p.2 cap = PyF.nan then PyF.fin 0 else occupancyRate p.2 cap := by
  unfold slotSpec
  rw [h]

/-- Pointwise characterisation of the dense series: slot `i` holds the
rate of hour `i` when present (and not NaN), `0.0` otherwise. -/
theorem buildSlots_get (cap : ℚ) (hours : List (ℤ × ℚ))
    (hnodup : (hours.map Prod.fst).Nodup) (i : ℕ) (hi : i < 24) :
    (buildSlots cap hours)[i]? = some (slotSpec cap hours i) := by
  cases hfind : hours.find? (fun p => p.1 = (i : ℤ)) with
  | none =>
    rw [slotSpec_of_none cap hours i hfind]
    unfold buildSlots
    rw [foldlUpdate_get_preserved cap hours _ i hi ?hnone]
    · exact List.getElem?_replicate_of_lt hi
    case hnone =>
      intro p hp hpi
      exact absurd hpi (by simpa using List.find?_eq_none.mp hfind p hp)
  | some p =>
    have hpmem := List.mem_of_find?_eq_some hfind
    have hpi : p.1 = (i : ℤ) := by simpa using List.find?_some hfind
    rw [slotSpec_of_some cap hours i p hfind]
    by_cases hnan : occupancyRate p.2 cap = PyF.nan
    · rw [if_pos hnan]
      unfold buildSlots
      rw [foldlUpdate_get_preserved cap hours _ i hi ?allnan]
      · exact List.getElem?_replicate_of_lt hi
      case allnan =>
        intro q hq hqi
        have hqp : q = p := List.inj_on_of_nodup_map hnodup hq hpmem (hqi.trans hpi.symm)
        rw [hqp]
        exact hnan
    · rw [if_neg hnan]
      have h0 : (0 : ℤ) ≤ p.1 := by omega
      have h24 : p.1 < 24 := by omega
      have hw := foldlUpdate_get_written cap hours (List.replicate 24 (PyF.fin 0))
        (by simp) hnodup p.1 p.2 (by simpa using hpmem) h0 h24 hnan
      have hti : p.1.toNat = i := by omega
      rw [hti] at hw
      exact hw

/-- The dense series equals the map of the per-slot specification over
hours `0..23`. -/
theorem buildSlots_eq_map (cap : ℚ) (hours : List (ℤ × ℚ))
    (hnodup : (hours.map Prod.fst).Nodup) :
    buildSlots cap hours = (List.range 24).map (slotSpec cap hours) := by
  apply List.ext_getElem?
  intro i
  by_cases hi : i < 24
  · rw [buildSlots_get cap hours hnodup i hi]
    simp [hi]
  · rw [List.getElem?_eq_none (by rw [buildSlots_length]; omega),
      List.getElem?_eq_none (by simp; omega)]

/-- No slot of the dense series is NaN: the initial slots are `0.0` and
`Series.update` never writes an NA value. -/
theorem buildSlots_no_nan (cap : ℚ) (hours : List (ℤ × ℚ)) :
    ∀ x ∈ buildSlots cap hours, x ≠ PyF.nan := by
  unfold buildSlots
  have step : ∀ (l : List (ℤ × ℚ)) (slots : List PyF),
      (∀ x ∈ slots, x ≠ PyF.nan) →
      ∀ x ∈ l.foldl (fun s p => updateSlot s p.1 (occupancyRate p.2 cap)) slots, x ≠ PyF.nan := by
    intro l
    induction l with
    | nil => intro slots hs; exact hs
    | cons p t ih =>
      intro slots hs
      rw [List.foldl_cons]
      apply ih
      intro x hx
      unfold updateSlot at hx
      split at hx
      · exact hs x hx
      · split at hx
        · rcases List.mem_or_eq_of_mem_set hx with hmem | heq
          · exact hs x hmem
          · next hvnan _ => rw [heq]; exact hvnan
        · exact hs x hx
  apply step
  intro x hx
  rw [List.eq_of_mem_replicate hx]
  simp

/-- NaN is the neutral element of the binary maximum on the left. -/
theorem pyMax2_nan_left (x : PyF) : pyMax2 PyF.nan x = x := by
  cases x <;> rfl

/-- `pyfLe` is reflexive. -/
theorem pyfLe_refl (a : PyF) : pyfLe a a = true := by
  cases a <;> simp [pyfLe]

/-- The binary maximum returns one of its two arguments. -/
theorem pyMax2_cases (a b : PyF) : pyMax2 a b = a ∨ pyMax2 a b = b := by
  cases a <;> cases b <;> simp [pyMax2]
  case fin.fin p q => exact le_total q p

/-- The binary maximum of two values, one of which is not NaN, is not NaN. -/
theorem pyMax2_ne_nan (a b : PyF) (h : a ≠ PyF.nan ∨ b ≠ PyF.nan) :
    pyMax2 a b ≠ PyF.nan := by
  cases a <;> cases b <;> simp_all [pyMax2]

/-- The first argument is below the binary maximum. -/
theorem pyfLe_max_left (a b : PyF) : pyfLe a (pyMax2 a b) = true := by
  cases a <;> cases b <;> simp [pyMax2, pyfLe]

/-- The second argument is below the binary maximum. -/
theorem pyfLe_max_right (a b : PyF) : pyfLe b (pyMax2 a b) = true := by
  cases a <;> cases b <;> simp [pyMax2, pyfLe]

/-- `pyfLe` is transitive. -/
theorem pyfLe_trans (a b c : PyF) (h1 : pyfLe a b = true) (h2 : pyfLe b c = true) :
    pyfLe a c = true := by
  cases a <;> cases b <;> cases c <;> simp_all [pyfLe]
  exact le_trans h1 h2

/-- The accumulator is below the fold of the binary maximum. -/
theorem pyfLe_foldl_acc (l : List PyF) : ∀ acc, pyfLe acc (l.foldl pyMax2 acc) = true := by
  induction l with
  | nil => intro acc; exact pyfLe_refl acc
  | cons x t ih =>
    intro acc
    rw [List.foldl_cons]
    exact pyfLe_trans _ _ _ (pyfLe_max_left acc x) (ih (pyMax2 acc x))

/-- The fold of the binary maximum is the accumulator or a list element. -/
theorem foldl_pyMax2_mem (l : List PyF) :
    ∀ acc, l.foldl pyMax2 acc = acc ∨ l.foldl pyMax2 acc ∈ l := by
  induction l with
  | nil => intro acc; left; rfl
  | cons x t ih =>
    intro acc
    rw [List.foldl_cons]
    rcases ih (pyMax2 acc x) with h | h
    · rcases pyMax2_cases acc x with h2 | h2
      · left; rw [h, h2]
      · right; rw [h, h2]; exact List.mem_cons_self ..
    · right; exact List.mem_cons_of_mem _ h

/-- The fold of the binary maximum over a non-NaN accumulator is not NaN. -/
theorem foldl_pyMax2_ne_nan (l : List PyF) :
    ∀ acc, acc ≠ PyF.nan → l.foldl pyMax2 acc ≠ PyF.nan := by
  induction l with
  | nil => intro acc h; exact h
  | cons x t ih =>
    intro acc h
    rw [List.foldl_cons]
    exact ih _ (pyMax2_ne_nan acc x (Or.inl h))

/-- On a nonempty series without NaN entries, `Series.max()` returns an
element of the series. -/
theorem pyMaxList_mem (l : List PyF) (hne : l ≠ []) (hnn : ∀ x ∈ l, x ≠ PyF.nan) :
    pyMaxList l ∈ l := by
  unfold pyMaxList
  rcases foldl_pyMax2_mem l PyF.nan with h | h
  · exfalso
    cases l with
    | nil => exact hne rfl
    | cons x t =>
      rw [List.foldl_cons, pyMax2_nan_left] at h
      exact foldl_pyMax2_ne_nan t x (hnn x (List.mem_cons_self ..)) h
  · exact h

/-- Every element of the series is below `Series.max()`. -/
theorem pyMaxList_le (l : List PyF) (v : PyF) (hv : v ∈ l) :
    pyfLe v (pyMaxList l) = true := by
  unfold pyMaxList
  have step : ∀ (t : List PyF) (acc : PyF), v ∈ t → pyfLe v (t.foldl pyMax2 acc) = true := by
    intro t
    induction t with
    | nil => intro acc h; cases h
    | cons x r ih =>
      intro acc h
      rw [List.foldl_cons]
      rcases List.mem_cons.mp h with rfl | hmem
      · exact pyfLe_trans _ _ _ (pyfLe_max_right acc v) (pyfLe_foldl_acc r (pyMax2 acc v))
      · exact ih _ hmem
  exact step l PyF.nan hv

/-- Inversion of the loop body: a produced summary pins down every field
of the record and the summary. -/
theorem processLot_ok_some (lot : LotRecord) (nm : String) (s : LotSummary)
    (h : processLot lot = Except.ok (some (nm, s))) :
    ∃ cap permit cnt, lot.name = some nm ∧ lot.capacity = some cap ∧
      lot.permit = some permit ∧ lot.count_now = some cnt ∧
      lot.averageByHour ≠ [] ∧
      s = ⟨buildSlots cap lot.averageByHour,
        pyMaxList (buildSlots cap lot.averageByHour), permit, cnt, cap⟩ := by
  obtain ⟨oname, ocap, operm, ocnt, hrs⟩ := lot
  cases oname with
  | none => simp [processLot] at h
  | some nm2 =>
    cases ocap with
    | none => simp [processLot] at h
    | some cap =>
      cases hrs with
      | nil => simp [processLot] at h
      | cons p t =>
        cases operm with
        | none => simp [processLot] at h
        | some permit =>
          cases ocnt with
          | none => simp [processLot] at h
          | some cnt =>
            simp only [processLot, List.isEmpty_cons, Bool.false_eq_true, if_false,
              Except.ok.injEq, Option.some.injEq, Prod.mk.injEq] at h
            obtain ⟨h1, h2⟩ := h
            subst h1
            exact ⟨cap, permit, cnt, rfl, rfl, rfl, rfl, by simp, h2.symm⟩

/-- Overwriting an existing key leaves the key sequence unchanged. -/
theorem dictInsert_keys_mem {α : Type} (d : List (String × α)) (k : String) (v : α)
    (hmem : k ∈ d.map Prod.fst) :
    (dictInsert d k v).map Prod.fst = d.map Prod.fst := by
  unfold dictInsert
  rw [if_pos ?hany]
  case hany =>
    rw [List.any_eq_true]
    obtain ⟨p, hp, hpk⟩ := List.mem_map.mp hmem
    exact ⟨p, hp, by simp [hpk]⟩
  rw [List.map_map]
  apply List.map_congr_left
  intro p _
  by_cases hpk : p.1 = k <;> simp [hpk]

/-- Inserting a fresh key appends the pair at the end. -/
theorem dictInsert_not_mem {α : Type} (d : List (String × α)) (k : String) (v : α)
    (hmem : k ∉ d.map Prod.fst) :
    dictInsert d k v = d ++ [(k, v)] := by
  unfold dictInsert
  rw [if_neg]
  simp only [List.any_eq_true, decide_eq_true_eq, not_exists, not_and]
  intro p hp hpk
  exact hmem (List.mem_map.mpr ⟨p, hp, hpk⟩)

/-- Dict assignment preserves distinctness of the keys. -/
theorem dictInsert_nodup {α : Type} (d : List (String × α)) (k : String) (v : α)
    (h : (d.map Prod.fst).Nodup) : ((dictInsert d k v).map Prod.fst).Nodup := by
  by_cases hk : k ∈ d.map Prod.fst
  · rw [dictInsert_keys_mem d k v hk]
    exact h
  · rw [dictInsert_not_mem d k v hk, List.map_append]
    simp [List.nodup_append, h, List.disjoint_singleton, hk]

/-- The loop keeps the keys of `popular_times` distinct. -/
theorem analyzeLoop_nodup (lots : List LotRecord) :
    ∀ (acc m : List (String × LotSummary)), (acc.map Prod.fst).Nodup →
    analyzeLoop lots acc = Except.ok m → (m.map Prod.fst).Nodup := by
  induction lots with
  | nil =>
    intro acc m h he
    unfold analyzeLoop at he
    cases he
    exact h
  | cons lot rest ih =>
    intro acc m h he
    unfold analyzeLoop at he
    cases hp : processLot lot with
    | error e => rw [hp] at he; cases he
    | ok r =>
      rw [hp] at he
      cases r with
      | none => exact ih acc m h he
      | some pr => exact ih _ m (dictInsert_nodup acc pr.1 pr.2 h) he

/-- The keys of a completed aggregation are distinct. -/
theorem analyze_nodup (lots : List LotRecord) (m : List (String × LotSummary))
    (h : analyze lots = Except.ok m) : (m.map Prod.fst).Nodup :=
  analyzeLoop_nodup lots [] m (by simp) h

/-- Scalar JSON round-trip. -/
theorem pyfOfJson_pyfToJson (v : PyF) : pyfOfJson (pyfToJson v) = some v := by
  cases v <;> rfl

/-- Round-trip of a serialised series. -/
theorem mapOption_pyf (l : List PyF) : mapOption pyfOfJson (l.map pyfToJson) = some l := by
  induction l with
  | nil => rfl
  | cons x t ih => cases x <;> simp [mapOption, pyfToJson, pyfOfJson, ih]

/-- Round-trip of one summary object. -/
theorem parseSummary_dumpSummary (s : LotSummary) :
    parseSummary (dumpSummary s) = some s := by
  simp [parseSummary, dumpSummary, mapOption_pyf, pyfOfJson_pyfToJson]

/-- Round-trip of the serialised field list. -/
theorem mapOption_dump (m : List (String × LotSummary)) :
    mapOption (fun p => (parseSummary p.2).map (fun s => (p.1, s)))
      (m.map (fun p => (p.1, dumpSummary p.2))) = some m := by
  induction m with
  | nil => rfl
  | cons p t ih => simp [mapOption, parseSummary_dumpSummary, ih]

/-- Rebuilding a dict from pairs with distinct keys appends them in order. -/
theorem foldl_dictInsert_rebuild (m : List (String × LotSummary)) :
    ∀ acc, ((acc ++ m).map Prod.fst).Nodup →
    m.foldl (fun d q => dictInsert d q.1 q.2) acc = acc ++ m := by
  induction m with
  | nil => intro acc _; simp
  | cons p t ih =>
    intro acc h
    rw [List.foldl_cons]
    have hk : p.1 ∉ acc.map Prod.fst := by
      rw [List.map_append] at h
      have hd := List.disjoint_of_nodup_append h
      intro hmem
      exact hd hmem (by simp)
    rw [dictInsert_not_mem acc p.1 p.2 hk]
    have hacc : ((acc ++ [(p.1, p.2)]) ++ t).map Prod.fst = (acc ++ p :: t).map Prod.fst := by
      rw [List.append_assoc]
      rfl
    have := ih (acc ++ [(p.1, p.2)]) (by rw [hacc]; exact h)
    rw [this, List.append_assoc]
    rfl

/-- Round-trip of the whole output document for distinct lot names. -/
theorem parseOutput_dumpOutput (m : List (String × LotSummary))
    (hnodup : (m.map Prod.fst).Nodup) : parseOutput (dumpOutput m) = some m := by
  have h1 := mapOption_dump m
  have h2 := foldl_dictInsert_rebuild m [] (by simpa using hnodup)
  simp only [List.nil_append] at h2
  simp [parseOutput, dumpOutput, h1, h2]

/-- Unfolding of the 24-slot initial series as an explicit list. -/
theorem replicate24_eq : List.replicate 24 (PyF.fin 0) =
    [PyF.fin 0, PyF.fin 0, PyF.fin 0, PyF.fin 0, PyF.fin 0, PyF.fin 0, PyF.fin 0, PyF.fin 0,
     PyF.fin 0, PyF.fin 0, PyF.fin 0, PyF.fin 0, PyF.fin 0, PyF.fin 0, PyF.fin 0, PyF.fin 0,
     PyF.fin 0, PyF.fin 0, PyF.fin 0, PyF.fin 0, PyF.fin 0, PyF.fin 0, PyF.fin 0, PyF.fin 0] := rfl

/-- The scenario lot of the specification: North, capacity 100, Staff,
42 currently parked, hours 8 and 12 present. -/
def northLot : LotRecord :=
  ⟨some "North", some 100, some "Staff", some 42, [(8, 50), (12, 80)]⟩

/-- The summary the specification expects for `northLot`. -/
def northSummary : LotSummary :=
  ⟨[PyF.fin 0, PyF.fin 0, PyF.fin 0, PyF.fin 0, PyF.fin 0, PyF.fin 0, PyF.fin 0, PyF.fin 0,
    PyF.fin 50, PyF.fin 0, PyF.fin 0, PyF.fin 0, PyF.fin 80, PyF.fin 0, PyF.fin 0, PyF.fin 0,
    PyF.fin 0, PyF.fin 0, PyF.fin 0, PyF.fin 0, PyF.fin 0, PyF.fin 0, PyF.fin 0, PyF.fin 0],
   PyF.fin 80, "Staff", 42, 100⟩

/-- Concrete evaluation of the loop body on the scenario lot. -/
theorem processLot_north : processLot northLot = Except.ok (some ("North", northSummary)) := by
  norm_num [processLot, northLot, northSummary, buildSlots, replicate24_eq, updateSlot,
    occupancyRate, pyDiv, pyMul100, pyMaxList, pyMax2, fin_ne_nan, List.set, max_def]

/-- Concrete evaluation of the aggregation on the scenario lot. -/
theorem analyze_north : analyze [northLot] = Except.ok [("North", northSummary)] := by
  simp [analyze, analyzeLoop, processLot_north, dictInsert]

/-- Successful pipeline runs factor through a successful fetch and a
successful aggregation. -/
theorem runPipeline_ok (fetch : Except Unit (List LotRecord)) (m : List (String × LotSummary))
    (h : runPipeline fetch = Except.ok m) :
    ∃ lots, fetch = Except.ok lots ∧ analyze lots = Except.ok m := by
  cases fetch with
  | error u => simp [runPipeline] at h
  | ok lots =>
    cases ha : analyze lots with
    | error e => simp [runPipeline, ha] at h
    | ok m2 =>
      simp only [runPipeline, ha, Except.ok.injEq] at h
      exact ⟨lots, rfl, by rw [ha, h]⟩

/-- C1: for every lot in the output and every hour `h` in `0..23` present
in that lot's `historicalData.averageByHour` mapping, the summary's
`data[h]` equals exactly `(occupied count at h / capacity) * 100`, with no
rounding applied in the stored value (capacities are positive in the data
model, hence the nonzero hypothesis; hour labels of a Python dict are
distinct, hence the `Nodup` hypothesis). -/
theorem claim_c1_present_hour_exact (lot : LotRecord) (nm : String) (s : LotSummary) (cap : ℚ)
    (hcap : lot.capacity = some cap) (hc0 : cap ≠ 0)
    (hnodup : (lot.averageByHour.map Prod.fst).Nodup)
    (hrun : processLot lot = Except.ok (some (nm, s)))
    (h : ℤ) (occ : ℚ) (hmem : (h, occ) ∈ lot.averageByHour)
    (h0 : 0 ≤ h) (h24 : h < 24) :
    s.data[h.toNat]? = some (PyF.fin (occ / cap * 100)) := by
  obtain ⟨cap2, permit, cnt, hn, hc, hp, hcnt, hne, hs⟩ := processLot_ok_some lot nm s hrun
  rw [hcap] at hc
  injection hc with hc
  subst hc
  subst hs
  have hrate : occupancyRate occ cap = PyF.fin (occ / cap * 100) :=
    occupancyRate_of_ne_zero occ cap hc0
  have hw := foldlUpdate_get_written cap lot.averageByHour (List.replicate 24 (PyF.fin 0))
    (by simp) hnodup h occ hmem h0 h24 (by rw [hrate]; simp)
  rw [hrate] at hw
  exact hw

/-- Witness for C1 at the scenario lot and hour 8. -/
theorem claim_c1_witness :
    northSummary.data[(8 : ℤ).toNat]? = some (PyF.fin ((50 : ℚ) / 100 * 100)) :=
  claim_c1_present_hour_exact northLot "North" northSummary 100 rfl (by norm_num)
    (by decide) processLot_north 8 50 (by decide) (by decide) (by decide)

/-- C2: every produced lot summary has a `data` field of exactly 24
entries; with distinct hour labels it is precisely the sequence of the
per-hour slot values for hours 0,1,...,23 in ascending order. -/
theorem claim_c2_dense_24_ascending (lot : LotRecord) (nm : String) (s : LotSummary) (cap : ℚ)
    (hcap : lot.capacity = some cap)
    (hrun : processLot lot = Except.ok (some (nm, s))) :
    s.data.length = 24 ∧
    ((lot.averageByHour.map Prod.fst).Nodup →
      s.data = (List.range 24).map (slotSpec cap lot.averageByHour)) := by
  obtain ⟨cap2, permit, cnt, hn, hc, hp, hcnt, hne, hs⟩ := processLot_ok_some lot nm s hrun
  rw [hcap] at hc
  injection hc with hc
  subst hc
  subst hs
  exact ⟨buildSlots_length cap lot.averageByHour,
    fun hnodup => buildSlots_eq_map cap lot.averageByHour hnodup⟩

/-- Witness for C2 at the scenario lot. -/
theorem claim_c2_witness :
    northSummary.data.length = 24 ∧
    ((northLot.averageByHour.map Prod.fst).Nodup →
      northSummary.data = (List.range 24).map (slotSpec 100 northLot.averageByHour)) :=
  claim_c2_dense_24_ascending northLot "North" northSummary 100 rfl processLot_north

/-- C3: every produced lot summary's `max_occupancy` is the maximum of the
24 entries of its `data` sequence: it is one of the entries and bounds
each of them; and it is `0.0` whenever no hours were present in the source
(vacuously, as such a lot produces no summary). -/
theorem claim_c3_max_is_max (lot : LotRecord) (nm : String) (s : LotSummary)
    (hrun : processLot lot = Except.ok (some (nm, s))) :
    s.max_occupancy ∈ s.data ∧ (∀ v ∈ s.data, pyfLe v s.max_occupancy = true) ∧
    (lot.averageByHour = [] → s.max_occupancy = PyF.fin 0) := by
  obtain ⟨cap, permit, cnt, hn, hc, hp, hcnt, hne, hs⟩ := processLot_ok_some lot nm s hrun
  subst hs
  refine ⟨?_, ?_, ?_⟩
  · apply pyMaxList_mem
    · intro hnil
      dsimp only at hnil
      have hlen := buildSlots_length cap lot.averageByHour
      rw [hnil] at hlen
      cases hlen
    · exact buildSlots_no_nan cap lot.averageByHour
  · intro v hv
    exact pyMaxList_le _ v hv
  · intro hnil
    exact absurd hnil hne

/-- Witness for C3 at the scenario lot. -/
theorem claim_c3_witness :
    northSummary.max_occupancy ∈ northSummary.data ∧
    (∀ v ∈ northSummary.data, pyfLe v northSummary.max_occupancy = true) ∧
    (northLot.averageByHour = [] → northSummary.max_occupancy = PyF.fin 0) :=
  claim_c3_max_is_max northLot "North" northSummary processLot_north

/-- A lot whose hourly mapping is empty but whose other fields are all
present: the specification expects an all-zero summary for it. -/
def emptyHoursLot : LotRecord :=
  ⟨some "North", some 100, some "Staff", some 42, []⟩

/-- Counterexample to C4: a lot with an empty `averageByHour` produces no
summary at all — the loop body skips it and the output mapping is empty,
rather than containing a 24-slot all-zero summary for the lot. -/
theorem claim_c4_cex :
    processLot emptyHoursLot = Except.ok none ∧
    analyze [emptyHoursLot] = Except.ok [] := by
  constructor
  · simp [processLot, emptyHoursLot]
  · simp [analyze, analyzeLoop, processLot, emptyHoursLot]

/-- C4 (amended): a lot whose `historicalData.averageByHour` is absent or
empty is skipped by the aggregation — the run still succeeds but the
output mapping contains no summary for that lot (the `if not df.empty`
guard on line 39 prevents the all-zero summary the spec describes). -/
theorem claim_c4_amended (lot : LotRecord) (nm : String) (cap : ℚ)
    (hname : lot.name = some nm) (hcap : lot.capacity = some cap)
    (hemp : lot.averageByHour = []) :
    processLot lot = Except.ok none := by
  obtain ⟨oname, ocap, operm, ocnt, hrs⟩ := lot
  simp only at hname hcap hemp
  subst hname
  subst hcap
  subst hemp
  simp [processLot]

/-- Witness for the amended C4. -/
theorem claim_c4_witness : processLot ⟨some "Empty", some 7, some "Student", some 3, []⟩ =
    Except.ok none :=
  claim_c4_amended ⟨some "Empty", some 7, some "Student", some 3, []⟩ "Empty" 7 rfl rfl rfl

/-- C5: the specification's concrete scenario — the North lot with
capacity 100, Staff permit, 42 currently parked and hours 8 ↦ 50,
12 ↦ 80 produces exactly the summary with 50.0 at slot 8, 80.0 at slot
12, zeros elsewhere, `max_occupancy` 80.0, permit Staff, current
occupancy 42 and capacity 100. -/
theorem claim_c5_north_scenario :
    analyze [northLot] =
      Except.ok [("North",
        ⟨[PyF.fin 0, PyF.fin 0, PyF.fin 0, PyF.fin 0, PyF.fin 0, PyF.fin 0, PyF.fin 0, PyF.fin 0,
          PyF.fin 50, PyF.fin 0, PyF.fin 0, PyF.fin 0, PyF.fin 80, PyF.fin 0, PyF.fin 0, PyF.fin 0,
          PyF.fin 0, PyF.fin 0, PyF.fin 0, PyF.fin 0, PyF.fin 0, PyF.fin 0, PyF.fin 0, PyF.fin 0],
         PyF.fin 80, "Staff", 42, 100⟩)] :=
  analyze_north

/-- A lot with capacity 0 and a present hour with a positive count. -/
def zeroCapLot : LotRecord :=
  ⟨some "Zero", some 0, some "Staff", some 5, [(8, 50)]⟩

/-- The summary the script actually produces for `zeroCapLot`: the
division by zero is performed with IEEE semantics and slot 8 holds
`+inf`. -/
def zeroCapSummary : LotSummary :=
  ⟨[PyF.fin 0, PyF.fin 0, PyF.fin 0, PyF.fin 0, PyF.fin 0, PyF.fin 0, PyF.fin 0, PyF.fin 0,
    PyF.inf, PyF.fin 0, PyF.fin 0, PyF.fin 0, PyF.fin 0, PyF.fin 0, PyF.fin 0, PyF.fin 0,
    PyF.fin 0, PyF.fin 0, PyF.fin 0, PyF.fin 0, PyF.fin 0, PyF.fin 0, PyF.fin 0, PyF.fin 0],
   PyF.inf, "Staff", 5, 0⟩

/-- Counterexample to C6: a capacity-0 lot with a present hour is neither
excluded from the output nor does it abort the run — the division is
performed (slot 8 becomes `Infinity`), a summary is silently emitted and
the output file is written. -/
theorem claim_c6_cex :
    analyze [zeroCapLot] = Except.ok [("Zero", zeroCapSummary)] ∧
    writtenOutput (Except.ok [zeroCapLot]) = some (dumpOutput [("Zero", zeroCapSummary)]) ∧
    zeroCapSummary.data[(8 : ℕ)]? = some PyF.inf := by
  have ha : analyze [zeroCapLot] = Except.ok [("Zero", zeroCapSummary)] := by
    norm_num [analyze, analyzeLoop, processLot, zeroCapLot, zeroCapSummary, buildSlots,
      replicate24_eq, updateSlot, occupancyRate, pyDiv, pyMul100, pyMaxList, pyMax2,
      fin_ne_nan, inf_ne_nan, List.set, max_def, dictInsert]
  refine ⟨ha, ?_, rfl⟩
  simp [writtenOutput, runPipeline, ha]

/-- C6 (amended): a lot with capacity 0, all required fields present and
at least one hour in its mapping always yields a summary in the output
(no exclusion, no fatal error): pandas performs the division with IEEE
semantics, so every in-range hour with a positive count stores `+inf` in
its slot. -/
theorem claim_c6_amended (lot : LotRecord) (nm : String) (perm : String) (cnt : ℚ)
    (hcap : lot.capacity = some 0) (hname : lot.name = some nm)
    (hperm : lot.permit = some perm) (hcnt : lot.count_now = some cnt)
    (hne : lot.averageByHour ≠ []) :
    ∃ s, processLot lot = Except.ok (some (nm, s)) ∧
      ((lot.averageByHour.map Prod.fst).Nodup →
        ∀ h occ, (h, occ) ∈ lot.averageByHour → 0 ≤ h → h < 24 → 0 < occ →
          s.data[h.toNat]? = some PyF.inf) := by
  obtain ⟨oname, ocap, operm, ocnt, hrs⟩ := lot
  simp only at hcap hname hperm hcnt hne
  subst hcap
  subst hname
  subst hperm
  subst hcnt
  cases hrs with
  | nil => exact absurd rfl hne
  | cons p t =>
    refine ⟨⟨buildSlots 0 (p :: t), pyMaxList (buildSlots 0 (p :: t)), perm, cnt, 0⟩, ?_, ?_⟩
    · simp [processLot]
    · intro hnodup h occ hmem h0 h24 hpos
      have hrate : occupancyRate occ 0 = PyF.inf := occupancyRate_zero_cap occ hpos
      have hw := foldlUpdate_get_written 0 (p :: t) (List.replicate 24 (PyF.fin 0))
        (by simp) hnodup h occ hmem h0 h24 (by rw [hrate]; simp)
      rw [hrate] at hw
      exact hw

/-- Witness for the amended C6. -/
theorem claim_c6_witness :
    ∃ s, processLot ⟨some "Z2", some 0, some "S", some 1, [(9, 30)]⟩ =
        Except.ok (some ("Z2", s)) ∧
      (((⟨some "Z2", some 0, some "S", some 1, [(9, 30)]⟩ :
          LotRecord).averageByHour.map Prod.fst).Nodup →
        ∀ h occ, (h, occ) ∈ (⟨some "Z2", some 0, some "S", some 1, [(9, 30)]⟩ :
            LotRecord).averageByHour → 0 ≤ h → h < 24 → 0 < occ →
          s.data[h.toNat]? = some PyF.inf) :=
  claim_c6_amended ⟨some "Z2", some 0, some "S", some 1, [(9, 30)]⟩ "Z2" "S" 1
    rfl rfl rfl rfl (by simp)

/-- A lot missing the required field `permit`, with an empty hourly
mapping. -/
def noPermitLot : LotRecord :=
  ⟨some "NP", some 10, none, some 1, []⟩

/-- Counterexample to C7: a fetched record missing the required field
`permit` does not abort the run — because the loop reads `lot['permit']`
only inside the `if not df.empty` branch, the lot is silently skipped and
the run completes. -/
theorem claim_c7_cex :
    noPermitLot.permit = none ∧ analyze [noPermitLot] = Except.ok [] := by
  constructor
  · rfl
  · simp [analyze, analyzeLoop, processLot, noPermitLot]

/-- C7 (amended): a missing `name` or `capacity` aborts the run
unconditionally with a `KeyError`; a missing `permit` or `count_now`
aborts it exactly when the lot's hourly mapping is nonempty, and is
silently tolerated (the lot is skipped) when the mapping is empty; any
such `KeyError` in the loop body aborts the whole loop. -/
theorem claim_c7_amended (lot : LotRecord) :
    (lot.name = none → processLot lot = Except.error (PyError.keyError "name")) ∧
    (lot.name ≠ none → lot.capacity = none →
      processLot lot = Except.error (PyError.keyError "capacity")) ∧
    (lot.name ≠ none → lot.capacity ≠ none → lot.averageByHour ≠ [] → lot.permit = none →
      processLot lot = Except.error (PyError.keyError "permit")) ∧
    (lot.name ≠ none → lot.capacity ≠ none → lot.averageByHour ≠ [] → lot.permit ≠ none →
      lot.count_now = none → processLot lot = Except.error (PyError.keyError "count_now")) ∧
    (lot.name ≠ none → lot.capacity ≠ none → lot.averageByHour = [] →
      processLot lot = Except.ok none) ∧
    (∀ e rest acc, processLot lot = Except.error e →
      analyzeLoop (lot :: rest) acc = Except.error e) := by
  obtain ⟨oname, ocap, operm, ocnt, hrs⟩ := lot
  refine ⟨?_, ?_, ?_, ?_, ?_, ?_⟩
  · intro h
    simp only at h
    subst h
    simp [processLot]
  · intro h1 h2
    simp only at h1 h2
    subst h2
    cases oname with
    | none => exact absurd rfl h1
    | some nm => simp [processLot]
  · intro h1 h2 h3 h4
    simp only at h1 h2 h3 h4
    subst h4
    cases oname with
    | none => exact absurd rfl h1
    | some nm =>
      cases ocap with
      | none => exact absurd rfl h2
      | some cap =>
        cases hrs with
        | nil => exact absurd rfl h3
        | cons p t => simp [processLot]
  · intro h1 h2 h3 h4 h5
    simp only at h1 h2 h3 h4 h5
    subst h5
    cases oname with
    | none => exact absurd rfl h1
    | some nm =>
      cases ocap with
      | none => exact absurd rfl h2
      | some cap =>
        cases hrs with
        | nil => exact absurd rfl h3
        | cons p t =>
          cases operm with
          | none => exact absurd rfl h4
          | some perm => simp [processLot]
  · intro h1 h2 h3
    simp only at h1 h2 h3
    subst h3
    cases oname with
    | none => exact absurd rfl h1
    | some nm =>
      cases ocap with
      | none => exact absurd rfl h2
      | some cap => simp [processLot]
  · intro e rest acc h
    unfold analyzeLoop
    rw [h]

/-- Witness for the amended C7: a record missing `name` is fatal, and a
record missing only `permit` with an empty mapping is skipped. -/
theorem claim_c7_witness :
    processLot ⟨none, some 1, some "x", some 0, [(1, 1)]⟩ =
      Except.error (PyError.keyError "name") ∧
    processLot ⟨some "OK", some 10, none, some 2, []⟩ = Except.ok none :=
  ⟨(claim_c7_amended ⟨none, some 1, some "x", some 0, [(1, 1)]⟩).1 rfl,
   (claim_c7_amended ⟨some "OK", some 10, none, some 2, []⟩).2.2.2.2.1
     (by simp) (by simp) rfl⟩

/-- C8: a run that fails before the write stage — a fetch failure or a
`KeyError` while aggregating — writes no output file at all; a run that
reaches the write stage writes the complete serialised mapping. -/
theorem claim_c8_no_partial_output (fetch : Except Unit (List LotRecord)) :
    (∀ e, runPipeline fetch = Except.error e → writtenOutput fetch = none) ∧
    (∀ m, runPipeline fetch = Except.ok m → writtenOutput fetch = some (dumpOutput m)) ∧
    (fetch = Except.error () → writtenOutput fetch = none) := by
  refine ⟨?_, ?_, ?_⟩
  · intro e he
    unfold writtenOutput
    rw [he]
  · intro m hm
    unfold writtenOutput
    rw [hm]
  · intro hf
    subst hf
    rfl

/-- Witness for C8: a connectivity failure writes nothing. -/
theorem claim_c8_witness : writtenOutput (Except.error ()) = none :=
  (claim_c8_no_partial_output (Except.error ())).2.2 rfl

/-- C9: for every run that completes, the written output file parses back
to a mapping equal (entries and order) to the in-memory summaries the
aggregator returned. -/
theorem claim_c9_roundtrip (fetch : Except Unit (List LotRecord))
    (m : List (String × LotSummary)) (hok : runPipeline fetch = Except.ok m) :
    writtenOutput fetch = some (dumpOutput m) ∧ parseOutput (dumpOutput m) = some m := by
  constructor
  · unfold writtenOutput
    rw [hok]
  · obtain ⟨lots, hfetch, ha⟩ := runPipeline_ok fetch m hok
    exact parseOutput_dumpOutput m (analyze_nodup lots m ha)

/-- Witness for C9 at the trivial completed run. -/
theorem claim_c9_witness :
    writtenOutput (Except.ok []) = some (dumpOutput []) ∧
    parseOutput (dumpOutput []) = some [] :=
  claim_c9_roundtrip (Except.ok []) [] rfl

/-- An update at an out-of-range label is a no-op. -/
theorem updateSlot_out_of_range (slots : List PyF) (h : ℤ) (v : PyF)
    (hout : ¬(0 ≤ h ∧ h < 24)) : updateSlot slots h v = slots := by
  unfold updateSlot
  by_cases hv : v = PyF.nan
  · rw [if_pos hv]
  · rw [if_neg hv, if_neg hout]

/-- The dense series only depends on the in-range hours: entries whose
parsed hour lies outside `0..23` are ignored by the aligned update. -/
theorem buildSlots_filter (cap : ℚ) (hours : List (ℤ × ℚ)) :
    buildSlots cap hours =
      buildSlots cap (hours.filter (fun p => decide (0 ≤ p.1 ∧ p.1 < 24))) := by
  unfold buildSlots
  have step : ∀ (l : List (ℤ × ℚ)) (slots : List PyF),
      l.foldl (fun s p => updateSlot s p.1 (occupancyRate p.2 cap)) slots =
      (l.filter (fun p => decide (0 ≤ p.1 ∧ p.1 < 24))).foldl
        (fun s p => updateSlot s p.1 (occupancyRate p.2 cap)) slots := by
    intro l
    induction l with
    | nil => intro slots; rfl
    | cons p t ih =>
      intro slots
      by_cases hp : 0 ≤ p.1 ∧ p.1 < 24
      · rw [List.filter_cons_of_pos (by simpa using hp), List.foldl_cons, List.foldl_cons, ih]
      · rw [List.filter_cons_of_neg (by simpa using hp), List.foldl_cons,
          updateSlot_out_of_range _ _ _ hp, ih]
  exact step hours _

/-- C10: entries of `averageByHour` whose parsed hour lies outside `0..23`
are silently ignored: the summary's `data` and `max_occupancy` equal the
ones computed from the in-range entries alone, and the sequence still has
24 entries. -/
theorem claim_c10_out_of_range_ignored (lot : LotRecord) (nm : String) (s : LotSummary)
    (cap : ℚ) (hcap : lot.capacity = some cap)
    (hrun : processLot lot = Except.ok (some (nm, s))) :
    s.data = buildSlots cap
      (lot.averageByHour.filter (fun p => decide (0 ≤ p.1 ∧ p.1 < 24))) ∧
    s.data.length = 24 ∧
    s.max_occupancy = pyMaxList (buildSlots cap
      (lot.averageByHour.filter (fun p => decide (0 ≤ p.1 ∧ p.1 < 24)))) := by
  obtain ⟨cap2, permit, cnt, hn, hc, hp, hcnt, hne, hs⟩ := processLot_ok_some lot nm s hrun
  rw [hcap] at hc
  injection hc with hc
  subst hc
  subst hs
  refine ⟨buildSlots_filter cap lot.averageByHour, buildSlots_length cap lot.averageByHour, ?_⟩
  exact congrArg pyMaxList (buildSlots_filter cap lot.averageByHour)

/-- A lot whose only hour label parses to 25, outside the valid range. -/
def hour25Lot : LotRecord :=
  ⟨some "W", some 10, some "S", some 2, [(25, 7)]⟩

/-- The summary the script produces for `hour25Lot`: all slots stay zero. -/
def hour25Summary : LotSummary :=
  ⟨[PyF.fin 0, PyF.fin 0, PyF.fin 0, PyF.fin 0, PyF.fin 0, PyF.fin 0, PyF.fin 0, PyF.fin 0,
    PyF.fin 0, PyF.fin 0, PyF.fin 0, PyF.fin 0, PyF.fin 0, PyF.fin 0, PyF.fin 0, PyF.fin 0,
    PyF.fin 0, PyF.fin 0, PyF.fin 0, PyF.fin 0, PyF.fin 0, PyF.fin 0, PyF.fin 0, PyF.fin 0],
   PyF.fin 0, "S", 2, 10⟩

/-- Concrete evaluation of the loop body on `hour25Lot`. -/
theorem processLot_hour25 : processLot hour25Lot = Except.ok (some ("W", hour25Summary)) := by
  norm_num [processLot, hour25Lot, hour25Summary, buildSlots, replicate24_eq, updateSlot,
    occupancyRate, pyDiv, pyMul100, pyMaxList, pyMax2, fin_ne_nan, List.set, max_def]

/-- Witness for C10 at `hour25Lot`. -/
theorem claim_c10_witness :
    hour25Summary.data = buildSlots 10
      (hour25Lot.averageByHour.filter (fun p => decide (0 ≤ p.1 ∧ p.1 < 24))) ∧
    hour25Summary.data.length = 24 ∧
    hour25Summary.max_occupancy = pyMaxList (buildSlots 10
      (hour25Lot.averageByHour.filter (fun p => decide (0 ≤ p.1 ∧ p.1 < 24)))) :=
  claim_c10_out_of_range_ignored hour25Lot "W" hour25Summary 10 rfl processLot_hour25
